import Mathlib

/-!
Verification of the recording-session orchestrator in
`src/main/obsRecorder.ts` against its natural-language specification.

The TypeScript source is shallowly embedded below:

* The engine signal channel (a FIFO fed by the native callback, consumed
  by `assertNextSignal` racing a 5000 ms timer) is embedded as a list of
  pairs `(t, s)` where `t` is the arrival delay in milliseconds of signal
  `s`, measured from the moment the await that consumes it starts.  An
  entry already queued when the await begins has delay `0`; the timer
  wins the race exactly when the head entry has delay at least 5000 (or
  the queue delivers nothing at all, embedded as the empty list).
* Fallible code returns `Except`; thrown JS `Error`s become values of
  `ObsError` carrying the distinguishing data of the source message.
* The engine state touched by `reconfigure`/`setupScene`/`setupSources`/
  `clearSources` (the output-source slots set via `Global.setOutputSource`
  and the handle lifecycle) is embedded as an explicit state record, and
  every engine call is additionally recorded in an event trace so that
  ordering properties can be stated.
-/

namespace ObsRec

/-- Signal payload pushed by `OBS_service_connectOutputSignals`; field names
follow the source (`signalInfo.type`, `signalInfo.signal`). -/
structure Signal where
  type : String
  signal : String
deriving DecidableEq

/-- Errors thrown by the orchestrator.  `signalTimeout e` stands for the
rejection message naming the expected kind `e`; `unexpected n` stands for
the message with numeric suffix `n`; `notInitialized` stands for the
error thrown by `start` when OBS is not initialised. -/
inductive ObsError where
  | signalTimeout (expected : String)
  | unexpected (code : Nat)
  | notInitialized
deriving DecidableEq

/-- Queue of engine signals: arrival delay in ms relative to the start of
the await that consumes the entry, paired with the signal. -/
abbrev SignalQueue := List (Nat × Signal)

/-- The 5000 ms bound passed to `setTimeout` in `assertNextSignal`. -/
def signalTimeoutMs : Nat := 5000

/-- Embedding of `assertNextSignal` (obsRecorder.ts lines 503-528): race the
queue pop against a 5000 ms timer, then assert the type is `recording`
(else error 2) and the kind is the expected one (else error 3).  On
success the consumed signal and the remaining queue are returned. -/
def assertNextSignal (value : String) (q : SignalQueue) :
    Except ObsError (Signal × SignalQueue) :=
  match q with
  | [] => .error (.signalTimeout value)
  | (t, si) :: rest =>
    if signalTimeoutMs ≤ t then .error (.signalTimeout value)
    else if si.type != "recording" then .error (.unexpected 2)
    else if si.signal != value then .error (.unexpected 3)
    else .ok (si, rest)

/-- Lifecycle trace entries: an engine command issued, or a signal wait
attempted with the given expected kind. -/
inductive LEvent where
  | command (s : String)
  | await (kind : String)
deriving DecidableEq

/-- Embedding of `start` (obsRecorder.ts lines 393-398): throw when not
initialised, otherwise issue the start command and await one `start`
signal.  Returns the trace of engine calls plus the outcome. -/
def startM (obsInitialized : Bool) (q : SignalQueue) :
    List LEvent × Except ObsError SignalQueue :=
  if !obsInitialized then ([], .error .notInitialized)
  else
    match assertNextSignal "start" q with
    | .error e =>
        ([.command "OBS_service_startRecording", .await "start"], .error e)
    | .ok (_, q1) =>
        ([.command "OBS_service_startRecording", .await "start"], .ok q1)

/-- Embedding of `stop` (obsRecorder.ts lines 403-409): issue the stop
command, then await `stopping`, `stop`, `wrote` in order, aborting at the
first failure.  The trace lists the command and every wait attempted. -/
def stopM (q : SignalQueue) : List LEvent × Except ObsError SignalQueue :=
  match assertNextSignal "stopping" q with
  | .error e =>
      ([.command "OBS_service_stopRecording", .await "stopping"], .error e)
  | .ok (_, q1) =>
    match assertNextSignal "stop" q1 with
    | .error e =>
        ([.command "OBS_service_stopRecording", .await "stopping",
          .await "stop"], .error e)
    | .ok (_, q2) =>
      match assertNextSignal "wrote" q2 with
      | .error e =>
          ([.command "OBS_service_stopRecording", .await "stopping",
            .await "stop", .await "wrote"], .error e)
      | .ok (_, q3) =>
          ([.command "OBS_service_stopRecording", .await "stopping",
            .await "stop", .await "wrote"], .ok q3)

/-- Embedding of `shutdown` (obsRecorder.ts lines 414-433).  `fault` models
an exception text raised inside the try block (`none` when teardown
succeeds); its wrapping reproduces the source concatenation.  Returns the
new value of `obsInitialized`, the trace of engine calls, and the result. -/
def shutdownM (obsInitialized : Bool) (fault : Option String) :
    Bool × List LEvent × Except String Bool :=
  if !obsInitialized then (obsInitialized, [], .ok false)
  else
    match fault with
    | some e =>
        (obsInitialized, [],
          .error ("Exception when shutting down OBS process" ++ e))
    | none =>
        (false,
          [.command "OBS_service_removeCallback", .command "IPC.disconnect"],
          .ok true)

/-! Resolution matching (getClosestResolution and its JS number model).

JavaScript arithmetic in `getClosestResolution` can produce `NaN` (from
`parseInt` on junk and from arithmetic on `undefined`) and `Infinity`
(from `Math.min()` on an empty spread), and `Array.prototype.indexOf`
uses strict equality under which `NaN` never matches.  The value domain
is embedded as `JNum`; the integer-valued cases carry exact integers. -/

/-- One JavaScript number as it occurs in the scoring pipeline: an exact
integer, `NaN`, or positive `Infinity`. -/
inductive JNum where
  | int (n : Int)
  | nan
  | inf
deriving DecidableEq

/-- Embedding of `String.prototype.split` with a one-character separator,
on the character list of the string. -/
def splitOnChar (c : Char) : List Char → List (List Char)
  | [] => [[]]
  | a :: rest =>
    let r := splitOnChar c rest
    if a == c then [] :: r
    else
      match r with
      | [] => [[a]]
      | g :: gs => (a :: g) :: gs

/-- Decimal value of a digit-character list (most significant first). -/
def digitsVal (l : List Char) : Nat :=
  l.foldl (fun acc c => acc * 10 + (c.toNat - 48)) 0

/-- Longest digit run at the front of the list, `none` when there is no
digit, mirroring the digit-consuming phase of `parseInt`. -/
def parseDigits (l : List Char) : Option Nat :=
  let ds := l.takeWhile Char.isDigit
  if ds.isEmpty then none else some (digitsVal ds)

/-- Embedding of `parseInt(s, 10)`: skip leading whitespace, read an
optional sign and then the longest digit run; `none` stands for `NaN`. -/
def parseIntJS (s : List Char) : Option Int :=
  let t := s.dropWhile Char.isWhitespace
  match t with
  | '-' :: rest => (parseDigits rest).map (fun n => -(n : Int))
  | '+' :: rest => (parseDigits rest).map (fun n => (n : Int))
  | _ => (parseDigits t).map (fun n => (n : Int))

/-- Binary `Math.min`: `NaN` absorbs, `Infinity` is the identity. -/
def jsMin2 : JNum → JNum → JNum
  | .nan, _ => .nan
  | _, .nan => .nan
  | .inf, x => x
  | x, .inf => x
  | .int a, .int b => .int (min a b)

/-- Variadic `Math.min(...l)` (`Infinity` on the empty spread). -/
def jsMin : List JNum → JNum
  | [] => .inf
  | x :: xs => jsMin2 x (jsMin xs)

/-- Strict equality on `JNum` as used by `Array.prototype.indexOf`; in
particular `NaN` is not strictly equal to itself. -/
def jsEqNum : JNum → JNum → Bool
  | .int a, .int b => a == b
  | .inf, .inf => true
  | _, _ => false

/-- Embedding of `Array.prototype.indexOf` (first index of a strictly
equal element, `-1` when there is none), with running index `i`. -/
def jsIndexOfAux (l : List JNum) (v : JNum) (i : Nat) : Int :=
  match l with
  | [] => -1
  | x :: xs => if jsEqNum x v then (i : Int) else jsIndexOfAux xs v (i + 1)

/-- The Size shape used for resolutions: a width and a height. -/
structure Size where
  width : Int
  height : Int
deriving DecidableEq

/-- The per-candidate parse `v.split('x').map(v => parseInt(v, 10))` from
`getClosestResolution`. -/
def numericOf (v : String) : List (Option Int) :=
  (splitOnChar 'x' v.toList).map parseIntJS

/-- The per-candidate score `Math.abs(((target.width - v[0]) * 2) +
((target.height - v[1]) * 4))`; any missing or unparsable component makes
the whole expression `NaN`. -/
def scoreJS (target : Size) (v : List (Option Int)) : JNum :=
  match v.getD 0 none, v.getD 1 none with
  | some w, some h =>
      .int (((target.width - w) * 2 + (target.height - h) * 4).natAbs : Int)
  | _, _ => .nan

/-- Embedding of `getClosestResolution` (obsRecorder.ts lines 161-185).
`none` stands for the JS result `undefined`, which arises when
`indexOf` returns `-1` (empty array, or a `NaN` minimum). -/
def getClosestResolution (resolutions : List String) (target : Size) :
    Option String :=
  let numericResolutions := resolutions.map numericOf
  let indexArray := numericResolutions.map (scoreJS target)
  let minValue := jsMin indexArray
  let idx := jsIndexOfAux indexArray minValue 0
  if idx < 0 then none else resolutions.get? idx.toNat

/-- The canonical `"WxH"` string of a target size, as used by the claims
about exact matches. -/
def sizeToRes (t : Size) : String :=
  toString t.width ++ "x" ++ toString t.height

/-- The first two parsed components of a candidate string, when both
parse; a candidate is well formed exactly when this is `some`. -/
def parsePair (s : String) : Option (Int × Int) :=
  match (numericOf s).getD 0 none, (numericOf s).getD 1 none with
  | some w, some h => some (w, h)
  | _, _ => none

/-- Integer score of a well-formed candidate: the spec formula
`abs((target.w - w) * 2 + (target.h - h) * 4)`.  Junk scores 0 but is
always excluded by a well-formedness hypothesis where this is used. -/
def scoreInt (t : Size) (s : String) : Int :=
  match parsePair s with
  | some (w, h) => (((t.width - w) * 2 + (t.height - h) * 4).natAbs : Int)
  | none => 0

/-! Engine state model for configure and reconfigure.

The slots set via `Global.setOutputSource` are an association list from
track index to the attached source value; fresh engine handles receive
consecutive ids from a counter, and every engine call made by
`reconfigure` and its helpers is recorded in an `REvent` trace. -/

/-- An audio device as enumerated by `getAvailableAudio*Devices`. -/
structure AudioDevice where
  id : String
  name : String
deriving DecidableEq

/-- A display as enumerated by `getAvailableDisplays`. -/
structure Display where
  index : Int
  physicalSize : Size
deriving DecidableEq

/-- The engine-provided environment read during a reconfigure pass:
displays, supported resolution lists, encoders, audio devices. -/
structure ObsEnv where
  displays : List Display
  availBaseRes : List String
  availOutputRes : List String
  availEncoders : List String
  audioInputDevices : List AudioDevice
  audioOutputDevices : List AudioDevice
deriving DecidableEq

/-- The fields of `RecorderOptionsType` consumed by `reconfigure`. -/
structure RecOptions where
  obsCaptureMode : String
  monitorIndex : Int
  obsOutputResolution : String
  obsFPS : Int
  obsKBitRate : Int
  obsRecEncoder : String
  bufferStorageDir : String
  audioInputDeviceId : String
  audioOutputDeviceId : String
deriving DecidableEq

/-- A value attached to an output slot: the scene (holding its video
source handle) or one audio capture source with the state `setupSources`
gives it (`muted`, `audioMixers`). -/
inductive OutSrc where
  | scene (sceneId : Nat) (videoSourceId : Nat)
  | audioTrack (id : Nat) (kind : String) (deviceId : String)
      (deviceName : String) (muted : Bool) (audioMixers : Nat)
deriving DecidableEq

/-- The engine handle id released when a slot is cleared. -/
def OutSrc.srcId : OutSrc → Nat
  | .scene sid _ => sid
  | .audioTrack i _ _ _ _ _ => i

/-- A value written to the engine settings store (string, number, or the
JS `undefined`). -/
inductive SettingVal where
  | str (s : String)
  | num (n : Int)
  | undef
deriving DecidableEq

/-- One engine call made during configure/reconfigure. -/
inductive REvent where
  | setSettingE (category p : String) (v : SettingVal)
  | createInputE (kind srcName : String) (id : Nat)
  | updateSourceE (id : Nat)
  | saveSourceE (id : Nat)
  | createSceneE (srcName : String) (id : Nat)
  | addSceneItemE (sceneId sourceId : Nat)
  | setScaleE (sceneId : Nat)
  | clearSizeTimerE
  | startSizeTimerE
  | setOutputSourceE (idx : Nat) (src : Option OutSrc)
  | releaseSourceE (id : Nat)
  | removeSourceE (id : Nat)
deriving DecidableEq

/-- The mutable engine/session state threaded through reconfigure. -/
structure ObsState where
  slots : List (Nat × OutSrc)
  nextId : Nat
  lastVideoSourceSize : Option Size
  recTracksMask : Nat
deriving DecidableEq

/-- Read of `Global.getOutputSource(i)`. -/
def getSlot (slots : List (Nat × OutSrc)) (i : Nat) : Option OutSrc :=
  (slots.find? (fun p => p.1 == i)).map (fun p => p.2)

/-- Write of `Global.setOutputSource(i, v)` (`none` detaches the slot). -/
def setSlot (slots : List (Nat × OutSrc)) (i : Nat) (v : Option OutSrc) :
    List (Nat × OutSrc) :=
  let rest := slots.filter (fun p => p.1 != i)
  match v with
  | none => rest
  | some s => (i, s) :: rest

/-- One iteration of the `clearSources` loop at slot `index`: when the
slot is occupied, blank its track name, detach it, and release and remove
the handle. -/
def clearSlotStep (acc : List (Nat × OutSrc) × List REvent) (index : Nat) :
    List (Nat × OutSrc) × List REvent :=
  match getSlot acc.1 index with
  | some src =>
      (setSlot acc.1 index none,
       acc.2 ++
         [.setSettingE "Output" ("Track" ++ toString index ++ "Name") (.str ""),
          .setOutputSourceE index none,
          .releaseSourceE src.srcId,
          .removeSourceE src.srcId])
  | none => acc

/-- Embedding of `clearSources` (obsRecorder.ts lines 373-388): loop over
slot indices 1 to 63 and clear each occupied slot, then zero the
`RecTracks` mask. -/
def clearSourcesM (st : ObsState) : ObsState × List REvent :=
  let cleared := (List.range' 1 63).foldl clearSlotStep (st.slots, [])
  ({ st with slots := cleared.1, recTracksMask := 0 },
   cleared.2 ++ [.setSettingE "Output" "RecTracks" (.num 0)])

/-- The value written to the `RecEncoder` setting by `setObsRecEncoder`:
keep a configured, available encoder, otherwise auto-pick the last
enumerated one (`undefined` when none is enumerated). -/
def setObsRecEncoderVal (avail : List String) (configured : String) :
    SettingVal :=
  let autoPick := configured == "" || configured == "auto"
  let autoPick := autoPick || !(avail.contains configured)
  if autoPick then
    match avail.getLast? with
    | some e => .str e
    | none => .undef
  else .str configured

/-- Embedding of `configureOBS` (obsRecorder.ts lines 98-120): the fixed
sequence of settings writes, including the encoder pick. -/
def configureOBSM (env : ObsEnv) (opts : RecOptions) : List REvent :=
  [.setSettingE "Output" "Mode" (.str "Advanced"),
   .setSettingE "Output" "RecEncoder"
     (setObsRecEncoderVal env.availEncoders opts.obsRecEncoder),
   .setSettingE "Output" "RecFilePath" (.str opts.bufferStorageDir),
   .setSettingE "Output" "RecFormat" (.str "mp4"),
   .setSettingE "Output" "Recrate_control" (.str "VBR"),
   .setSettingE "Output" "Recbitrate" (.num (opts.obsKBitRate * 1024)),
   .setSettingE "Output" "Recmax_bitrate" (.num 300000),
   .setSettingE "Video" "FPSCommon" (.num opts.obsFPS)]

/-- Embedding of `parseResolutionsString`: the first two parsed
components (`none` is a `NaN` or missing component). -/
def parseResolutionsStringM (value : String) : Option Int × Option Int :=
  ((numericOf value).getD 0 none, (numericOf value).getD 1 none)

/-- `getClosestResolution` applied to a target that may have `NaN`
components: any `NaN` component makes every score `NaN`, so the result is
`undefined`. -/
def getClosestResolutionJ (res : List String) (t : Option Int × Option Int) :
    Option String :=
  match t with
  | (some w, some h) => getClosestResolution res (Size.mk w h)
  | _ => none

/-- The settings write performed by `setOBSVideoResolution`. -/
def setOBSVideoResolutionM (avail : List String) (t : Option Int × Option Int)
    (paramString : String) : REvent :=
  .setSettingE "Video" paramString
    (match getClosestResolutionJ avail t with
     | some r => .str r
     | none => .undef)

/-- The scene and video-source handle pair returned by `setupScene`. -/
structure SceneRef where
  sceneId : Nat
  videoSourceId : Nat
deriving DecidableEq

/-- Embedding of `setupScene` (obsRecorder.ts lines 209-252): set the
output resolution, create the mode-specific video source (monitor lookup
may fail, an unknown mode fails), set the base resolution, create the
scene, add and scale the source, and restart the size watcher. -/
def setupSceneM (env : ObsEnv) (opts : RecOptions) (st : ObsState) :
    Except String (ObsState × List REvent × SceneRef) :=
  let outputResolution := parseResolutionsStringM opts.obsOutputResolution
  let evOut := setOBSVideoResolutionM env.availOutputRes outputResolution "Output"
  if opts.obsCaptureMode == "monitor_capture" then
    let monitorIndexFromZero := opts.monitorIndex - 1
    match env.displays.find? (fun d => d.index == monitorIndexFromZero) with
    | none =>
        .error ("No such display with index: " ++ toString monitorIndexFromZero)
    | some d =>
      let vid := st.nextId
      ( .ok ({ st with nextId := st.nextId + 2 },
          [evOut,
           .createInputE "monitor_capture" "Monitor Capture" vid,
           .updateSourceE vid, .saveSourceE vid,
           setOBSVideoResolutionM env.availBaseRes
             (some d.physicalSize.width, some d.physicalSize.height) "Base",
           .createSceneE "main" (vid + 1),
           .addSceneItemE (vid + 1) vid,
           .setScaleE (vid + 1),
           .clearSizeTimerE, .startSizeTimerE],
          SceneRef.mk (vid + 1) vid) )
  else if opts.obsCaptureMode == "game_capture" then
    let vid := st.nextId
    ( .ok ({ st with nextId := st.nextId + 2 },
        [evOut,
         .createInputE "game_capture" "Game Capture" vid,
         .updateSourceE vid, .saveSourceE vid,
         setOBSVideoResolutionM env.availBaseRes outputResolution "Base",
         .createSceneE "main" (vid + 1),
         .addSceneItemE (vid + 1) vid,
         .setScaleE (vid + 1),
         .clearSizeTimerE, .startSizeTimerE],
        SceneRef.mk (vid + 1) vid) )
  else .error ("Invalid capture mode: " ++ opts.obsCaptureMode)

/-- The audio source value built for device `d` on track `currentTrack`:
muted flag per the selection policy and the bit mask routing to track 1
and the own track. -/
def audioSourceFor (id : Nat) (kind : String) (d : AudioDevice)
    (selection : String) (currentTrack : Nat) : OutSrc :=
  .audioTrack id kind d.id d.name
    (selection == "none" || (selection != "all" && d.id != selection))
    (1 ||| (1 <<< (currentTrack - 1)))

/-- Accumulator of the device loops in `setupSources`: current slots,
events so far, the `currentTrack` counter, and the fresh-id counter. -/
structure AudioAcc where
  slots : List (Nat × OutSrc)
  evs : List REvent
  currentTrack : Nat
  nid : Nat
deriving DecidableEq

/-- One iteration of a device loop in `setupSources`: create the capture
source, name its track, attach it to the current track slot, release the
local handle, and advance the track counter. -/
def audioStep (kind srcName selection : String)
    (acc : AudioAcc) (d : AudioDevice) : AudioAcc :=
  let src := audioSourceFor acc.nid kind d selection acc.currentTrack
  { slots := setSlot acc.slots acc.currentTrack (some src),
    evs := acc.evs ++
     [.createInputE kind srcName acc.nid,
      .setSettingE "Output" ("Track" ++ toString acc.currentTrack ++ "Name")
        (.str d.name),
      .setOutputSourceE acc.currentTrack (some src),
      .releaseSourceE acc.nid],
    currentTrack := acc.currentTrack + 1,
    nid := acc.nid + 1 }

/-- Embedding of `setupSources` (obsRecorder.ts lines 335-368): clear all
slots, attach the scene at slot 1, loop over input then output devices
assigning tracks from 2 upward, and set the `RecTracks` bit mask.  Also
returns the final value of the `currentTrack` counter. -/
def setupSourcesM (env : ObsEnv) (scn : SceneRef)
    (audioInputDeviceId audioOutputDeviceId : String) (st : ObsState) :
    ObsState × List REvent × Nat :=
  let cl := clearSourcesM st
  let sceneSrc := OutSrc.scene scn.sceneId scn.videoSourceId
  let slots1 := setSlot cl.1.slots 1 (some sceneSrc)
  let acc2 := env.audioInputDevices.foldl
    (audioStep "wasapi_input_capture" "mic-audio" audioInputDeviceId)
    (AudioAcc.mk slots1 [] 2 cl.1.nextId)
  let acc3 := env.audioOutputDevices.foldl
    (audioStep "wasapi_output_capture" "desktop-audio" audioOutputDeviceId)
    acc2
  let stc := cl.1
  ({ stc with
      slots := acc3.slots
      nextId := acc3.nid
      recTracksMask := 2 ^ (acc3.currentTrack - 1) - 1 },
   cl.2 ++
     [.setOutputSourceE 1 (some sceneSrc),
      .setSettingE "Output" "Track1Name" (.str "Mixed: all sources")] ++
     acc3.evs ++
     [.setSettingE "Output" "RecTracks"
        (.num ((2 ^ (acc3.currentTrack - 1) - 1 : Nat) : Int))],
   acc3.currentTrack)

/-- Embedding of `reconfigure` (obsRecorder.ts lines 24-34): reset the
last known video size, push settings, rebuild the scene, rebuild the
sources.  Returns the final state, the full trace, and the final track
counter. -/
def reconfigureM (env : ObsEnv) (opts : RecOptions) (st : ObsState) :
    Except String (ObsState × List REvent × Nat) :=
  let st0 := { st with lastVideoSourceSize := none }
  match setupSceneM env opts st0 with
  | .error e => .error e
  | .ok (st1, evScene, scn) =>
    let res := setupSourcesM env scn opts.audioInputDeviceId
      opts.audioOutputDeviceId st1
    .ok (res.1, configureOBSM env opts ++ evScene ++ res.2.1, res.2.2)

/-- Slot holds the scene. -/
def isSceneSrc : OutSrc → Bool
  | .scene _ _ => true
  | _ => false

/-- Number of slots holding a scene (hence a video source). -/
def sceneSlotCount (st : ObsState) : Nat :=
  (st.slots.filter (fun p => isSceneSrc p.2)).length

/-- Number of slots holding an audio capture source. -/
def audioSlotCount (st : ObsState) : Nat :=
  (st.slots.filter (fun p => !isSceneSrc p.2)).length

/-- The pristine session state before any configuration. -/
def emptyObsState : ObsState := ⟨[], 0, none, 0⟩

/-- Event creates an engine source handle (input or scene). -/
def isCreateEvent : REvent → Bool
  | .createInputE _ _ _ => true
  | .createSceneE _ _ => true
  | _ => false

/-- Event creates an audio capture source. -/
def isAudioCreateEvent : REvent → Bool
  | .createInputE k _ _ => k == "wasapi_input_capture" || k == "wasapi_output_capture"
  | _ => false

/-- Event creates the video source or the scene. -/
def isVideoCreateEvent : REvent → Bool
  | .createInputE k _ _ => k == "monitor_capture" || k == "game_capture"
  | .createSceneE _ _ => true
  | _ => false

/-- Event releases a handle created before the current pass (its id is
below the id counter at entry). -/
def isOldRelease (bound : Nat) : REvent → Bool
  | .releaseSourceE id => id < bound
  | _ => false

/-- State well-formedness: every attached handle id is below the fresh-id
counter.  It holds for the empty state and is preserved by reconfigure. -/
def ObsState.wf (st : ObsState) : Prop :=
  ∀ p ∈ st.slots, p.2.srcId < st.nextId

/-- The muted flag carried by an attached source (scenes count as
unmuted). -/
def OutSrc.mutedFlag : OutSrc → Bool
  | .scene _ _ => false
  | .audioTrack _ _ _ _ m _ => m

/-- The device id an attached audio source is bound to. -/
def OutSrc.deviceIdOf : OutSrc → String
  | .scene _ _ => ""
  | .audioTrack _ _ did _ _ _ => did

/-- The slot entries produced by one `setupSources` device loop: device
`k` of the list lands on track `ct + k` with handle id `nid + k`. -/
def audioEntries (kind sel : String) :
    List AudioDevice → Nat → Nat → List (Nat × OutSrc)
  | [], _, _ => []
  | d :: ds, ct, nid =>
    (ct, audioSourceFor nid kind d sel ct) ::
      audioEntries kind sel ds (ct + 1) (nid + 1)

/-- Projection of a reconfigure outcome to its components (a dummy value
on the error branch, used only on runs known to succeed). -/
def recResult (r : Except String (ObsState × List REvent × Nat)) :
    ObsState × List REvent × Nat :=
  match r with
  | .ok x => x
  | .error _ => (emptyObsState, [], 0)

/-- The event trace of a reconfigure outcome. -/
def recTrace (r : Except String (ObsState × List REvent × Nat)) :
    List REvent :=
  (recResult r).2.1

/-- Concrete engine environment used to exercise the theorems: one audio
input device and one audio output device. -/
def envC : ObsEnv where
  displays := []
  availBaseRes := ["1920x1080"]
  availOutputRes := ["1920x1080"]
  availEncoders := ["x264"]
  audioInputDevices := [AudioDevice.mk "mic1" "Mic One"]
  audioOutputDevices := [AudioDevice.mk "spk1" "Speaker One"]

/-- Concrete recorder options used to exercise the theorems. -/
def optsC : RecOptions where
  obsCaptureMode := "game_capture"
  monitorIndex := 1
  obsOutputResolution := "1920x1080"
  obsFPS := 60
  obsKBitRate := 50
  obsRecEncoder := "auto"
  bufferStorageDir := "C:/recordings"
  audioInputDeviceId := "all"
  audioOutputDeviceId := "none"

/-- A concrete session state with one previously attached scene whose
handle id 0 (video source id 1) predates the fresh-id counter 2. -/
def stC : ObsState := ⟨[(1, OutSrc.scene 0 1)], 2, none, 0⟩

/-- The accumulator of the device loops as `setupSources` runs them:
starting from the cleared slots with the scene attached at slot 1, track
counter 2 and the untouched id counter. -/
def audioAccAfter (env : ObsEnv) (scn : SceneRef) (inSel outSel : String)
    (st : ObsState) : AudioAcc :=
  env.audioOutputDevices.foldl
    (audioStep "wasapi_output_capture" "desktop-audio" outSel)
    (env.audioInputDevices.foldl
      (audioStep "wasapi_input_capture" "mic-audio" inSel)
      (AudioAcc.mk (setSlot (clearSourcesM st).1.slots 1
        (some (OutSrc.scene scn.sceneId scn.videoSourceId))) [] 2
        (clearSourcesM st).1.nextId))

/-- The state produced by a first reconfigure pass on the concrete
fixture, starting from the fresh session state. -/
def stFirst : ObsState := (recResult (reconfigureM envC optsC emptyObsState)).1

/-- The outcome of a second back-to-back reconfigure pass on the
concrete fixture. -/
def resSecond : ObsState × List REvent × Nat :=
  recResult (reconfigureM envC optsC stFirst)

/-! Theorems about the embedded operations follow. -/

/-- Helper: whatever the queue holds, the trace of `stop` begins with the
engine stop command. -/
theorem stopM_head (q : SignalQueue) :
    (stopM q).1.head? = some (.command "OBS_service_stopRecording") := by
  rcases h1 : assertNextSignal "stopping" q with e1 | ⟨s1, q1⟩
  · simp [stopM, h1]
  · rcases h2 : assertNextSignal "stop" q1 with e2 | ⟨s2, q2⟩
    · simp [stopM, h1, h2]
    · rcases h3 : assertNextSignal "wrote" q2 with e3 | ⟨s3, q3⟩
      · simp [stopM, h1, h2, h3]
      · simp [stopM, h1, h2, h3]

/-- C1: for every session queue, `stop` first issues the engine stop
command, then awaits signals of kinds `stopping`, `stop`, `wrote` in that
strict order (each wait being one `assertNextSignal` with its own 5000 ms
bound); if one of the three waits fails, `stop` aborts there with that
error, its trace listing only the waits attempted so far, and does not
attempt the remaining waits. -/
theorem stop_three_signal_waits (q : SignalQueue) :
    ((stopM q).1.head? = some (.command "OBS_service_stopRecording")) ∧
    ((∃ e, assertNextSignal "stopping" q = .error e ∧
        stopM q = ([.command "OBS_service_stopRecording", .await "stopping"],
          .error e)) ∨
     (∃ s1 q1 e, assertNextSignal "stopping" q = .ok (s1, q1) ∧
        assertNextSignal "stop" q1 = .error e ∧
        stopM q = ([.command "OBS_service_stopRecording", .await "stopping",
          .await "stop"], .error e)) ∨
     (∃ s1 q1 s2 q2 e, assertNextSignal "stopping" q = .ok (s1, q1) ∧
        assertNextSignal "stop" q1 = .ok (s2, q2) ∧
        assertNextSignal "wrote" q2 = .error e ∧
        stopM q = ([.command "OBS_service_stopRecording", .await "stopping",
          .await "stop", .await "wrote"], .error e)) ∨
     (∃ s1 q1 s2 q2 s3 q3, assertNextSignal "stopping" q = .ok (s1, q1) ∧
        assertNextSignal "stop" q1 = .ok (s2, q2) ∧
        assertNextSignal "wrote" q2 = .ok (s3, q3) ∧
        stopM q = ([.command "OBS_service_stopRecording", .await "stopping",
          .await "stop", .await "wrote"], .ok q3))) := by
  refine ⟨stopM_head q, ?_⟩
  rcases h1 : assertNextSignal "stopping" q with e1 | ⟨s1, q1⟩
  · exact Or.inl ⟨e1, rfl, by simp only [stopM, h1]⟩
  · rcases h2 : assertNextSignal "stop" q1 with e2 | ⟨s2, q2⟩
    · exact Or.inr (Or.inl ⟨s1, q1, e2, rfl, h2, by simp only [stopM, h1, h2]⟩)
    · rcases h3 : assertNextSignal "wrote" q2 with e3 | ⟨s3, q3⟩
      · exact Or.inr (Or.inr (Or.inl ⟨s1, q1, s2, q2, e3, rfl, h2, h3,
          by simp only [stopM, h1, h2, h3]⟩))
      · exact Or.inr (Or.inr (Or.inr ⟨s1, q1, s2, q2, s3, q3, rfl, h2, h3,
          by simp only [stopM, h1, h2, h3]⟩))

/-- C2: `assertNextSignal` resolves with the head signal when a matching
`recording` signal is already queued (arrival delay 0); it times out
naming the expected kind when nothing arrives within the 5000 ms bound
(empty queue, or head arriving no earlier than the bound); a head
arriving in time with the wrong type fails with unexpected-behaviour
error 2, and with the right type but wrong kind with error 3. -/
theorem awaitSignal_cases (q : SignalQueue) (expected : String) :
    (∀ s rest, q = (0, s) :: rest → s.type = "recording" →
        s.signal = expected → assertNextSignal expected q = .ok (s, rest)) ∧
    (q = [] → assertNextSignal expected q = .error (.signalTimeout expected)) ∧
    (∀ t s rest, q = (t, s) :: rest → signalTimeoutMs ≤ t →
        assertNextSignal expected q = .error (.signalTimeout expected)) ∧
    (∀ t s rest, q = (t, s) :: rest → t < signalTimeoutMs →
        s.type ≠ "recording" →
        assertNextSignal expected q = .error (.unexpected 2)) ∧
    (∀ t s rest, q = (t, s) :: rest → t < signalTimeoutMs →
        s.type = "recording" → s.signal ≠ expected →
        assertNextSignal expected q = .error (.unexpected 3)) := by
  refine ⟨?_, ?_, ?_, ?_, ?_⟩
  · rintro s rest rfl hty hsig
    simp [assertNextSignal, signalTimeoutMs, hty, hsig]
  · rintro rfl; rfl
  · rintro t s rest rfl ht
    simp [assertNextSignal, ht]
  · rintro t s rest rfl ht hty
    simp [assertNextSignal, Nat.not_le.mpr ht, hty]
  · rintro t s rest rfl ht hty hsig
    simp [assertNextSignal, Nat.not_le.mpr ht, hty, hsig]

/-- Witness for C2: with the matching signal already queued, the await
resolves immediately with that signal. -/
theorem awaitSignal_cases_witness :
    assertNextSignal "start" [(0, Signal.mk "recording" "start")] =
      .ok (Signal.mk "recording" "start", []) :=
  (awaitSignal_cases [(0, Signal.mk "recording" "start")] "start").1
    (Signal.mk "recording" "start") [] rfl rfl rfl

/-- C9: `shutdown` on an uninitialised session returns `false` with no
engine calls; on an initialised session it unregisters the callback,
disconnects, and returns `true`, after which a repeated `shutdown`
returns `false`; an exception in teardown is wrapped and re-raised. -/
theorem shutdown_behavior (fault : Option String) (e : String) :
    shutdownM false fault = (false, [], .ok false) ∧
    shutdownM true none =
      (false, [.command "OBS_service_removeCallback", .command "IPC.disconnect"],
        .ok true) ∧
    shutdownM (shutdownM true none).1 fault = (false, [], .ok false) ∧
    shutdownM true (some e) =
      (true, [], .error ("Exception when shutting down OBS process" ++ e)) :=
  ⟨rfl, rfl, rfl, rfl⟩

/-- Helper: a well-formed candidate has the integer score given by the
spec formula. -/
theorem scoreJS_eq_int (t : Size) (s : String) (h : (parsePair s).isSome) :
    scoreJS t (numericOf s) = .int (scoreInt t s) := by
  rcases hw : (numericOf s).getD 0 none with _ | w
  · simp only [parsePair, hw] at h
    cases hh : (numericOf s).getD 1 none <;> simp [hh] at h
  · rcases hh : (numericOf s).getD 1 none with _ | h2
    · simp only [parsePair, hw, hh] at h
      simp at h
    · simp only [scoreJS, scoreInt, parsePair, hw, hh]

/-- Helper: integer scores are never negative (they are absolute values). -/
theorem scoreInt_nonneg (t : Size) (s : String) : 0 ≤ scoreInt t s := by
  unfold scoreInt
  rcases parsePair s with _ | ⟨w, h⟩
  · exact le_refl 0
  · exact Int.natCast_nonneg _

/-- Helper: `Math.min` over a nonempty list of integer scores is an
integer score that is a member and a lower bound. -/
theorem jsMin_int_map (l : List Int) (hne : l ≠ []) :
    ∃ m, jsMin (l.map JNum.int) = .int m ∧ m ∈ l ∧ ∀ x ∈ l, m ≤ x := by
  induction l with
  | nil => exact absurd rfl hne
  | cons a l ih =>
    cases l with
    | nil => exact ⟨a, rfl, by simp, by simp⟩
    | cons b l2 =>
      obtain ⟨m, hm, hmem, hmin⟩ := ih (by simp)
      refine ⟨min a m, ?_, ?_, ?_⟩
      · show jsMin2 (.int a) (jsMin ((b :: l2).map JNum.int)) = .int (min a m)
        rw [hm]
        rfl
      · rcases le_total a m with h | h
        · rw [min_eq_left h]
          exact List.mem_cons_self a _
        · rw [min_eq_right h]
          exact List.mem_cons_of_mem a hmem
      · intro x hx
        rcases List.mem_cons.mp hx with hxa | hx2
        · rw [hxa]
          exact min_le_left a m
        · exact le_trans (min_le_right a m) (hmin x hx2)

/-- Helper: `indexOf` on mapped integer scores returns the first index
holding the sought value. -/
theorem jsIndexOfAux_spec (l : List Int) (m : Int) :
    ∀ (i p : Nat), p < l.length → l.getD p 0 = m →
      (∀ k, k < p → l.getD k 0 ≠ m) →
      jsIndexOfAux (l.map JNum.int) (.int m) i = ((i + p : Nat) : Int) := by
  induction l with
  | nil => intro i p hp _ _; simp at hp
  | cons a l ih =>
    intro i p hp hat hbef
    cases p with
    | zero =>
      have ha : a = m := by simpa using hat
      simp [jsIndexOfAux, jsEqNum, ha]
    | succ p2 =>
      have ha : a ≠ m := by simpa using hbef 0 (Nat.succ_pos p2)
      have hrec := ih (i + 1) p2 (by simpa using hp) (by simpa using hat)
        (fun k hk => by simpa using hbef (k + 1) (by omega))
      simp only [List.map_cons, jsIndexOfAux, jsEqNum, beq_iff_eq,
        if_neg ha, hrec]
      push_cast
      ring

/-- Helper: every member of an integer list has a first occurrence. -/
theorem exists_first_index (l : List Int) (m : Int) (hm : m ∈ l) :
    ∃ p, p < l.length ∧ l.getD p 0 = m ∧ ∀ k, k < p → l.getD k 0 ≠ m := by
  induction l with
  | nil => simp at hm
  | cons a l ih =>
    by_cases ha : a = m
    · exact ⟨0, by simp, by simpa using ha, fun k hk => absurd hk (by omega)⟩
    · have hm2 : m ∈ l := by
        rcases List.mem_cons.mp hm with h | h
        · exact absurd h.symm ha
        · exact h
      obtain ⟨p, hp, hat, hbef⟩ := ih hm2
      refine ⟨p + 1, by simpa using hp, by simpa using hat, ?_⟩
      intro k hk
      cases k with
      | zero => simpa using ha
      | succ k2 => simpa using hbef k2 (by omega)

/-- Helper: an in-range `getD` is the corresponding `get`. -/
theorem getD_of_lt {α : Type} (l : List α) (d : α) (k : Nat)
    (hk : k < l.length) : l.getD k d = l.get ⟨k, hk⟩ := by
  simp [List.getD_eq_getElem?_getD, List.getElem?_eq_getElem hk]

/-- Helper: an in-range `getD` is a member of the list. -/
theorem getD_mem_of_lt {α : Type} (l : List α) (d : α) (k : Nat)
    (hk : k < l.length) : l.getD k d ∈ l := by
  rw [getD_of_lt l d k hk]
  exact l.get_mem k hk

/-- Helper: for an index in range, `getD` of a mapped score list is the
score of `getD` of the string list. -/
theorem svals_getD (res : List String) (t : Size) (k : Nat)
    (hk : k < res.length) :
    (res.map (scoreInt t)).getD k 0 = scoreInt t (res.getD k "") := by
  rw [getD_of_lt _ _ _ (by simpa using hk), getD_of_lt _ _ _ hk]
  simp [List.get_eq_getElem, List.getElem_map]

/-- Core characterisation of `getClosestResolution` on a nonempty list of
well-formed candidates: the result is the first candidate attaining the
minimum integer score. -/
theorem closest_core (res : List String) (t : Size) (hne : res ≠ [])
    (hwf : ∀ s ∈ res, (parsePair s).isSome) :
    ∃ p, p < res.length ∧
      getClosestResolution res t = some (res.getD p "") ∧
      (∀ k, k < res.length →
        scoreInt t (res.getD p "") ≤ scoreInt t (res.getD k "")) ∧
      (∀ k, k < p →
        scoreInt t (res.getD k "") ≠ scoreInt t (res.getD p "")) := by
  have hmap : (res.map numericOf).map (scoreJS t) =
      (res.map (scoreInt t)).map JNum.int := by
    rw [List.map_map, List.map_map]
    exact List.map_congr_left fun s hs => scoreJS_eq_int t s (hwf s hs)
  have hsne : res.map (scoreInt t) ≠ [] := by
    simpa using hne
  obtain ⟨m, hmin_eq, hmem, hmin_le⟩ := jsMin_int_map (res.map (scoreInt t)) hsne
  obtain ⟨p, hp, hat, hbef⟩ := exists_first_index (res.map (scoreInt t)) m hmem
  have hplen : p < res.length := by simpa using hp
  have hidx : jsIndexOfAux ((res.map numericOf).map (scoreJS t))
      (jsMin ((res.map numericOf).map (scoreJS t))) 0 = (p : Int) := by
    rw [hmap, hmin_eq]
    simpa using jsIndexOfAux_spec (res.map (scoreInt t)) m 0 p hp hat hbef
  refine ⟨p, hplen, ?_, ?_, ?_⟩
  · simp only [getClosestResolution, hidx]
    rw [if_neg (by omega)]
    rw [Int.toNat_natCast]
    rw [List.get?_eq_getElem?, List.getElem?_eq_getElem hplen,
      getD_of_lt _ _ _ hplen]
    simp [List.get_eq_getElem]
  · intro k hk
    have h1 : scoreInt t (res.getD p "") = m := by
      rw [← svals_getD res t p hplen]; exact hat
    have h2 := hmin_le ((res.map (scoreInt t)).getD k 0)
      (getD_mem_of_lt _ _ _ (by simpa using hk))
    rw [svals_getD res t k hk] at h2
    rw [h1]; exact h2
  · intro k hk
    have hklen : k < res.length := lt_trans hk hplen
    have h1 : scoreInt t (res.getD p "") = m := by
      rw [← svals_getD res t p hplen]; exact hat
    have h2 := hbef k hk
    rw [svals_getD res t k hklen] at h2
    rw [h1]; exact h2

/-- C3 counterexample: the claim that an exact member is always returned
fails.  With candidates `1918x1081` and `1920x1080` and target 1920x1080,
the target string is a member, yet the earlier candidate also scores
`abs((1920-1918)*2 + (1080-1081)*4) = 0` and `indexOf` picks it first. -/
theorem closest_exact_member_cex :
    sizeToRes (Size.mk 1920 1080) = "1920x1080" ∧
    "1920x1080" ∈ ["1918x1081", "1920x1080"] ∧
    getClosestResolution ["1918x1081", "1920x1080"] (Size.mk 1920 1080) =
      some "1918x1081" ∧
    getClosestResolution ["1918x1081", "1920x1080"] (Size.mk 1920 1080) ≠
      some "1920x1080" := by
  refine ⟨by decide, by decide, by decide, by decide⟩

/-- C3 (amended): for every nonempty list of well-formed resolution
strings and every target, `getClosestResolution` returns a member of the
list; and a member that parses exactly to the target dimensions (in
particular the WxH string of the target itself) is returned provided no
earlier member also attains score zero. -/
theorem closest_member_and_first_zero (res : List String) (t : Size)
    (hne : res ≠ []) (hwf : ∀ s ∈ res, (parsePair s).isSome) :
    (∃ r, r ∈ res ∧ getClosestResolution res t = some r) ∧
    (∀ p0, p0 < res.length →
      parsePair (res.getD p0 "") = some (t.width, t.height) →
      (∀ k, k < p0 → scoreInt t (res.getD k "") ≠ 0) →
      getClosestResolution res t = some (res.getD p0 "")) := by
  obtain ⟨p, hp, heq, hmin, hfirst⟩ := closest_core res t hne hwf
  constructor
  · exact ⟨res.getD p "", getD_mem_of_lt _ _ _ hp, heq⟩
  · intro p0 hp0 hparse hbef
    have hscore0 : scoreInt t (res.getD p0 "") = 0 := by
      unfold scoreInt
      rw [hparse]
      simp
    have hminle := hmin p0 hp0
    have hminzero : scoreInt t (res.getD p "") = 0 :=
      le_antisymm (hscore0 ▸ hminle) (scoreInt_nonneg t (res.getD p ""))
    rcases lt_trichotomy p p0 with h | h | h
    · exact absurd hminzero (hbef p h)
    · rw [heq, h]
    · exact absurd (hscore0.trans hminzero.symm) (hfirst p0 h)

/-- Witness for C3 (amended): at the head position with no earlier
candidates, the exact member is returned. -/
theorem closest_member_and_first_zero_witness :
    getClosestResolution ["1920x1080", "1080x1920"] (Size.mk 1920 1080) =
      some "1920x1080" :=
  (closest_member_and_first_zero ["1920x1080", "1080x1920"]
      (Size.mk 1920 1080) (by decide) (by decide)).2
    0 (by decide) (by decide) (fun k hk => absurd hk (Nat.not_lt_zero k))

/-- C4: on an empty candidate list `getClosestResolution` does not fail:
`Math.min()` of the empty spread is `Infinity`, `indexOf` returns `-1`,
and indexing at `-1` yields `undefined` (here `none`), so no error is
thrown, contrary to the throws documentation of its caller
`setOBSVideoResolution`. -/
theorem closest_empty_returns_none (target : Size) :
    getClosestResolution [] target = none := rfl

/-- C5: `getClosestResolution` scores each well-formed candidate with the
formula `abs((target.w - w) * 2 + (target.h - h) * 4)` (the integer score
`scoreInt`) and returns the first candidate attaining the minimum score;
in particular on `[1920x1080, 1080x1920]` with target 1920x1080 it
returns `1920x1080` and not the dimension-swapped twin. -/
theorem closest_first_argmin :
    (∀ (res : List String) (t : Size), res ≠ [] →
      (∀ s ∈ res, (parsePair s).isSome) →
      ∃ p, p < res.length ∧
        getClosestResolution res t = some (res.getD p "") ∧
        (∀ k, k < res.length →
          scoreInt t (res.getD p "") ≤ scoreInt t (res.getD k "")) ∧
        (∀ k, k < p →
          scoreInt t (res.getD k "") ≠ scoreInt t (res.getD p ""))) ∧
    getClosestResolution ["1920x1080", "1080x1920"] (Size.mk 1920 1080) =
      some "1920x1080" :=
  ⟨fun res t hne hwf => closest_core res t hne hwf, by decide⟩

/-- Witness for C5: the characterisation applied at a concrete list. -/
theorem closest_first_argmin_witness :
    ∃ p, p < (["640x480", "1920x1080"] : List String).length ∧
      getClosestResolution ["640x480", "1920x1080"] (Size.mk 1920 1080) =
        some ((["640x480", "1920x1080"] : List String).getD p "") ∧
      (∀ k, k < (["640x480", "1920x1080"] : List String).length →
        scoreInt (Size.mk 1920 1080)
            ((["640x480", "1920x1080"] : List String).getD p "") ≤
          scoreInt (Size.mk 1920 1080)
            ((["640x480", "1920x1080"] : List String).getD k "")) ∧
      (∀ k, k < p →
        scoreInt (Size.mk 1920 1080)
            ((["640x480", "1920x1080"] : List String).getD k "") ≠
          scoreInt (Size.mk 1920 1080)
            ((["640x480", "1920x1080"] : List String).getD p "")) :=
  closest_first_argmin.1 ["640x480", "1920x1080"] (Size.mk 1920 1080)
    (by decide) (by decide)

/-- C10: `start` on an uninitialised session fails at once with the
not-initialised error, issuing no engine command; `stop` performs no such
check: its trace always begins with the stop command, and on a session
that never signals (empty queue) it proceeds to the first wait and fails
there with the `stopping` signal timeout rather than a
not-initialised error. -/
theorem stop_skips_init_check (q : SignalQueue) :
    startM false q = ([], .error .notInitialized) ∧
    (stopM q).1.head? = some (.command "OBS_service_stopRecording") ∧
    stopM [] = ([.command "OBS_service_stopRecording", .await "stopping"],
      .error (.signalTimeout "stopping")) :=
  ⟨rfl, stopM_head q, rfl⟩

/-! Clear-phase lemmas. -/

/-- One clear step leaves exactly the entries at other indices (whether
or not the slot was occupied). -/
theorem clearSlotStep_slots (acc : List (Nat × OutSrc) × List REvent)
    (i : Nat) :
    (clearSlotStep acc i).1 = acc.1.filter (fun p => p.1 != i) := by
  unfold clearSlotStep
  cases h : getSlot acc.1 i with
  | some src => rfl
  | none =>
    have hfind : acc.1.find? (fun p => p.1 == i) = none := by
      unfold getSlot at h
      cases hf : acc.1.find? (fun p => p.1 == i) with
      | none => rfl
      | some p => rw [hf] at h; simp at h
    have hall := List.find?_eq_none.mp hfind
    have : acc.1.filter (fun p => p.1 != i) = acc.1 :=
      List.filter_eq_self.mpr (fun p hp => by
        have := hall p hp
        simpa using this)
    rw [this]

/-- The clear loop leaves exactly the entries whose index is outside the
visited index list. -/
theorem clearFold_slots :
    ∀ (l : List Nat) (acc : List (Nat × OutSrc) × List REvent),
      (l.foldl clearSlotStep acc).1 =
        acc.1.filter (fun p => !(l.contains p.1)) := by
  intro l
  induction l with
  | nil =>
    intro acc
    simp
  | cons i l ih =>
    intro acc
    rw [List.foldl_cons, ih, clearSlotStep_slots, List.filter_filter]
    refine List.filter_congr (fun p _ => ?_)
    simp only [List.contains_cons, Bool.not_or, bne]
    exact Bool.and_comm _ _

/-- Events appended by the clear loop create nothing, and every release
they perform targets a handle attached in the starting slots. -/
theorem clearFold_evs :
    ∀ (l : List Nat) (acc : List (Nat × OutSrc) × List REvent) (e : REvent),
      e ∈ (l.foldl clearSlotStep acc).2 →
      e ∈ acc.2 ∨
        (isCreateEvent e = false ∧
          ∀ id, e = .releaseSourceE id → ∃ p, p ∈ acc.1 ∧ p.2.srcId = id) := by
  intro l
  induction l with
  | nil =>
    intro acc e he
    exact Or.inl he
  | cons i l ih =>
    intro acc e he
    rw [List.foldl_cons] at he
    rcases ih (clearSlotStep acc i) e he with h | ⟨hnc, hrel⟩
    · revert h
      unfold clearSlotStep
      cases hs : getSlot acc.1 i with
      | none => exact fun h => Or.inl h
      | some src =>
        intro h
        rcases List.mem_append.mp h with h2 | h2
        · exact Or.inl h2
        · have hmem : ∃ p, p ∈ acc.1 ∧ p.2 = src := by
            unfold getSlot at hs
            cases hf : acc.1.find? (fun p => p.1 == i) with
            | none => rw [hf] at hs; simp at hs
            | some p =>
              rw [hf] at hs
              simp at hs
              exact ⟨p, List.mem_of_find?_eq_some hf, hs⟩
          obtain ⟨p, hp, hpsrc⟩ := hmem
          simp only [List.mem_cons, List.not_mem_nil, or_false] at h2
          rcases h2 with rfl | rfl | rfl | rfl
          · exact Or.inr ⟨rfl, fun id hid => by cases hid⟩
          · exact Or.inr ⟨rfl, fun id hid => by cases hid⟩
          · exact Or.inr ⟨rfl, fun id hid => by
              cases hid
              exact ⟨p, hp, hpsrc ▸ rfl⟩⟩
          · exact Or.inr ⟨rfl, fun id hid => by cases hid⟩
    · refine Or.inr ⟨hnc, fun id hid => ?_⟩
      obtain ⟨p, hp, hpid⟩ := hrel id hid
      rw [clearSlotStep_slots] at hp
      exact ⟨p, List.mem_filter.mp hp |>.1, hpid⟩

/-! Audio-loop lemmas. -/

/-- The device loops advance the track and id counters by the device
count. -/
theorem audioFold_counters (kind srcName sel : String) :
    ∀ (ds : List AudioDevice) (acc : AudioAcc),
      (ds.foldl (audioStep kind srcName sel) acc).currentTrack =
        acc.currentTrack + ds.length ∧
      (ds.foldl (audioStep kind srcName sel) acc).nid =
        acc.nid + ds.length := by
  intro ds
  induction ds with
  | nil => intro acc; simp
  | cons d ds ih =>
    intro acc
    rw [List.foldl_cons]
    obtain ⟨h1, h2⟩ := ih (audioStep kind srcName sel acc d)
    rw [h1, h2]
    unfold audioStep
    simp only [List.length_cons]
    omega

/-- If no existing slot index collides with the track range of the loop,
the loop prepends exactly the `audioEntries` of the device list. -/
theorem audioFold_slots (kind srcName sel : String) :
    ∀ (ds : List AudioDevice) (acc : AudioAcc),
      (∀ p ∈ acc.slots, ∀ k, acc.currentTrack ≤ k →
        k < acc.currentTrack + ds.length → p.1 ≠ k) →
      (ds.foldl (audioStep kind srcName sel) acc).slots =
        (audioEntries kind sel ds acc.currentTrack acc.nid).reverse ++
          acc.slots := by
  intro ds
  induction ds with
  | nil => intro acc h; simp [audioEntries]
  | cons d ds ih =>
    intro acc h
    rw [List.foldl_cons]
    have hstep : (audioStep kind srcName sel acc d).slots =
        (acc.currentTrack,
          audioSourceFor acc.nid kind d sel acc.currentTrack) :: acc.slots := by
      unfold audioStep setSlot
      simp only []
      rw [List.filter_eq_self.mpr (fun p hp => by
        have := h p hp acc.currentTrack (le_refl _) (by simp)
        simpa using this)]
    have hpre : ∀ p ∈ (audioStep kind srcName sel acc d).slots, ∀ k,
        (audioStep kind srcName sel acc d).currentTrack ≤ k →
        k < (audioStep kind srcName sel acc d).currentTrack + ds.length →
        p.1 ≠ k := by
      intro p hp k hk1 hk2
      rw [hstep] at hp
      have hct : (audioStep kind srcName sel acc d).currentTrack =
          acc.currentTrack + 1 := rfl
      rw [hct] at hk1 hk2
      rcases List.mem_cons.mp hp with rfl | hp2
      · simp only []
        omega
      · exact h p hp2 k (by omega) (by simp only [List.length_cons]; omega)
    rw [ih (audioStep kind srcName sel acc d) hpre, hstep]
    have hct : (audioStep kind srcName sel acc d).currentTrack =
        acc.currentTrack + 1 := rfl
    have hnid : (audioStep kind srcName sel acc d).nid = acc.nid + 1 := rfl
    rw [hct, hnid]
    simp [audioEntries, List.append_assoc]

/-- Length of the produced entries equals the device count. -/
theorem audioEntries_length (kind sel : String) :
    ∀ (ds : List AudioDevice) (ct nid : Nat),
      (audioEntries kind sel ds ct nid).length = ds.length := by
  intro ds
  induction ds with
  | nil => intro ct nid; rfl
  | cons d ds ih => intro ct nid; simp [audioEntries, ih]

/-- Every produced entry sits in the track range of the loop and carries an
audio source for one of the devices, with the muted flag computed by the
selection policy. -/
theorem audioEntries_mem (kind sel : String) :
    ∀ (ds : List AudioDevice) (ct nid : Nat) (q : Nat × OutSrc),
      q ∈ audioEntries kind sel ds ct nid →
      (ct ≤ q.1 ∧ q.1 < ct + ds.length) ∧
      ∃ d, d ∈ ds ∧ ∃ id mix,
        q.2 = OutSrc.audioTrack id kind d.id d.name
          (sel == "none" || (sel != "all" && d.id != sel)) mix := by
  intro ds
  induction ds with
  | nil => intro ct nid q hq; simp [audioEntries] at hq
  | cons d ds ih =>
    intro ct nid q hq
    rcases List.mem_cons.mp hq with rfl | hq2
    · exact ⟨⟨le_refl _, by simp⟩, d, List.mem_cons_self d ds, nid,
        1 ||| (1 <<< (ct - 1)), rfl⟩
    · obtain ⟨⟨hb1, hb2⟩, d2, hd2, id, mix, hsrc⟩ := ih (ct + 1) (nid + 1) q hq2
      exact ⟨⟨by omega, by simp only [List.length_cons]; omega⟩,
        d2, List.mem_cons_of_mem d hd2, id, mix, hsrc⟩

/-- Events appended by the device loops: creations use the source kind of
the loop, no scene is created, and every release targets a handle at or
above the starting id counter of the loop. -/
theorem audioFold_evs (kind srcName sel : String) :
    ∀ (ds : List AudioDevice) (acc : AudioAcc) (e : REvent),
      e ∈ (ds.foldl (audioStep kind srcName sel) acc).evs →
      e ∈ acc.evs ∨
        ((∀ k2 nm id, e = .createInputE k2 nm id → k2 = kind) ∧
         (∀ nm id, e ≠ .createSceneE nm id) ∧
         (∀ id, e = .releaseSourceE id → acc.nid ≤ id)) := by
  intro ds
  induction ds with
  | nil => intro acc e he; exact Or.inl he
  | cons d ds ih =>
    intro acc e he
    rw [List.foldl_cons] at he
    rcases ih (audioStep kind srcName sel acc d) e he with h | ⟨h1, h2, h3⟩
    · unfold audioStep at h
      simp only [] at h
      rcases List.mem_append.mp h with h2 | h2
      · exact Or.inl h2
      · simp only [List.mem_cons, List.not_mem_nil, or_false] at h2
        rcases h2 with rfl | rfl | rfl | rfl
        · refine Or.inr ⟨?_, ?_, ?_⟩
          · intro k2 nm id hid
            injection hid with hk hn hi
            exact hk.symm
          · intro nm id hid
            exact REvent.noConfusion hid
          · intro id hid
            exact REvent.noConfusion hid
        · exact Or.inr ⟨fun k2 nm id hid => REvent.noConfusion hid,
            fun nm id hid => REvent.noConfusion hid,
            fun id hid => REvent.noConfusion hid⟩
        · exact Or.inr ⟨fun k2 nm id hid => REvent.noConfusion hid,
            fun nm id hid => REvent.noConfusion hid,
            fun id hid => REvent.noConfusion hid⟩
        · refine Or.inr ⟨fun k2 nm id hid => REvent.noConfusion hid,
            fun nm id hid => REvent.noConfusion hid, fun id hid => ?_⟩
          injection hid with hi
          omega
    · refine Or.inr ⟨h1, h2, fun id hid => ?_⟩
      have := h3 id hid
      have hnid : (audioStep kind srcName sel acc d).nid = acc.nid + 1 := rfl
      omega

/-! Scene and settings phase lemmas. -/

/-- Every event of `configureOBS` is a settings write. -/
theorem configureOBSM_evs (env : ObsEnv) (opts : RecOptions) :
    ∀ e ∈ configureOBSM env opts, ∃ c p v, e = .setSettingE c p v := by
  intro e he
  simp only [configureOBSM, List.mem_cons, List.not_mem_nil, or_false] at he
  rcases he with rfl | rfl | rfl | rfl | rfl | rfl | rfl | rfl <;>
    exact ⟨_, _, _, rfl⟩

/-- A successful `setupScene` bumps the id counter by two (video source,
then scene), touches no slots, and its events contain no audio-source
creation and no release. -/
theorem setupSceneM_ok (env : ObsEnv) (opts : RecOptions) (st : ObsState)
    (st1 : ObsState) (evs : List REvent) (scn : SceneRef)
    (h : setupSceneM env opts st = .ok (st1, evs, scn)) :
    st1 = { st with nextId := st.nextId + 2 } ∧
    scn = SceneRef.mk (st.nextId + 1) st.nextId ∧
    (∀ e ∈ evs, isAudioCreateEvent e = false ∧
      ∀ id, e ≠ .releaseSourceE id) := by
  unfold setupSceneM at h
  split at h
  · dsimp only at h
    split at h
    · exact absurd h (by simp)
    · simp only [Except.ok.injEq, Prod.mk.injEq] at h
      obtain ⟨hst, hevs, hscn⟩ := h
      refine ⟨hst.symm, hscn.symm, ?_⟩
      intro e he
      rw [← hevs] at he
      simp only [List.mem_cons, List.not_mem_nil, or_false] at he
      rcases he with rfl | rfl | rfl | rfl | rfl | rfl | rfl | rfl | rfl | rfl <;>
        exact ⟨by simp [setOBSVideoResolutionM, isAudioCreateEvent],
          fun id hid => REvent.noConfusion hid⟩
  · split at h
    · simp only [Except.ok.injEq, Prod.mk.injEq] at h
      obtain ⟨hst, hevs, hscn⟩ := h
      refine ⟨hst.symm, hscn.symm, ?_⟩
      intro e he
      rw [← hevs] at he
      simp only [List.mem_cons, List.not_mem_nil, or_false] at he
      rcases he with rfl | rfl | rfl | rfl | rfl | rfl | rfl | rfl | rfl | rfl <;>
        exact ⟨by simp [setOBSVideoResolutionM, isAudioCreateEvent],
          fun id hid => REvent.noConfusion hid⟩
    · exact absurd h (by simp)

/-! Segment ordering machinery. -/

/-- An out-of-range `getD` is the default; otherwise it is a member. -/
theorem getD_mem_or_default {α : Type} (l : List α) (k : Nat) (d : α) :
    l.getD k d ∈ l ∨ l.getD k d = d := by
  by_cases hk : k < l.length
  · exact Or.inl (getD_mem_of_lt l d k hk)
  · right
    rw [List.getD_eq_getElem?_getD, List.getElem?_eq_none (by omega)]
    rfl

/-- If a predicate `P` never holds on the right segment nor on the
default, and `Q` never holds on the left segment nor on the default,
then any position where `P` holds precedes any position where `Q`
holds. -/
theorem ordered_segments {α : Type} (A B : List α) (P Q : α → Bool)
    (d : α) (hPB : ∀ e ∈ B, P e = false) (hQA : ∀ e ∈ A, Q e = false)
    (hPd : P d = false) (hQd : Q d = false) :
    ∀ i j, P ((A ++ B).getD i d) = true → Q ((A ++ B).getD j d) = true →
      i < j := by
  intro i j hPi hQj
  have hi : i < A.length := by
    by_contra hi
    push_neg at hi
    rw [List.getD_append_right A B d i hi] at hPi
    rcases getD_mem_or_default B (i - A.length) d with hm | hm
    · rw [hPB _ hm] at hPi
      exact Bool.false_ne_true hPi
    · rw [hm, hPd] at hPi
      exact Bool.false_ne_true hPi
  have hj : A.length ≤ j := by
    by_contra hj
    push_neg at hj
    rw [List.getD_append A B d j hj] at hQj
    rw [hQA _ (getD_mem_of_lt A d j hj)] at hQj
    exact Bool.false_ne_true hQj
  omega

/-! Setup-sources characterisation. -/

/-- Negated `contains` as non-membership (Nat keys). -/
theorem not_contains_iff (l : List Nat) (a : Nat) :
    (!(l.contains a)) = true ↔ a ∉ l := by
  simp [List.contains]

/-- Membership in the cleared index range. -/
theorem mem_range63 (k : Nat) : k ∈ List.range' 1 63 ↔ 1 ≤ k ∧ k < 64 := by
  rw [List.mem_range']
  constructor
  · rintro ⟨i, hi, rfl⟩
    omega
  · rintro ⟨h1, h2⟩
    exact ⟨k - 1, by omega, by omega⟩

/-- State after `clearSources`: exactly the entries outside indices 1-63
survive; counters other than the `RecTracks` mask are untouched. -/
theorem clearSourcesM_state (st : ObsState) :
    (clearSourcesM st).1.slots =
      st.slots.filter (fun p => !((List.range' 1 63).contains p.1)) ∧
    (clearSourcesM st).1.nextId = st.nextId := by
  unfold clearSourcesM
  dsimp only
  exact ⟨clearFold_slots (List.range' 1 63) (st.slots, []), rfl⟩

/-- Slots, final track counter, mask, and id counter after
`setupSources`, provided the device count leaves the audio tracks inside
the clearable index range. -/
theorem setupSourcesM_spec (env : ObsEnv) (scn : SceneRef)
    (inSel outSel : String) (st : ObsState)
    (hcount : env.audioInputDevices.length + env.audioOutputDevices.length ≤ 62) :
    (setupSourcesM env scn inSel outSel st).1.slots =
      (audioEntries "wasapi_output_capture" outSel env.audioOutputDevices
          (2 + env.audioInputDevices.length)
          (st.nextId + env.audioInputDevices.length)).reverse ++
        ((audioEntries "wasapi_input_capture" inSel env.audioInputDevices 2
            st.nextId).reverse ++
          ((1, OutSrc.scene scn.sceneId scn.videoSourceId) ::
            st.slots.filter (fun p => !((List.range' 1 63).contains p.1)))) ∧
    (setupSourcesM env scn inSel outSel st).2.2 =
      2 + env.audioInputDevices.length + env.audioOutputDevices.length ∧
    (setupSourcesM env scn inSel outSel st).1.recTracksMask =
      2 ^ (1 + env.audioInputDevices.length + env.audioOutputDevices.length) - 1 ∧
    (setupSourcesM env scn inSel outSel st).1.nextId =
      st.nextId + env.audioInputDevices.length + env.audioOutputDevices.length := by
  obtain ⟨hclS, hclN⟩ := clearSourcesM_state st
  have hclKeys : ∀ p ∈ (clearSourcesM st).1.slots, p.1 ∉ List.range' 1 63 := by
    intro p hp
    rw [hclS] at hp
    exact (not_contains_iff _ _).mp (List.mem_filter.mp hp).2
  have hslots1 : setSlot (clearSourcesM st).1.slots 1
      (some (OutSrc.scene scn.sceneId scn.videoSourceId)) =
      (1, OutSrc.scene scn.sceneId scn.videoSourceId) ::
        (clearSourcesM st).1.slots := by
    unfold setSlot
    dsimp only
    rw [List.filter_eq_self.mpr (fun p hp => ?_)]
    have h1 : p.1 ≠ 1 := fun hp1 => hclKeys p hp
      (hp1 ▸ (mem_range63 1).mpr ⟨le_refl 1, by omega⟩)
    simpa using h1
  set nIn := env.audioInputDevices.length with hnIn
  set nOut := env.audioOutputDevices.length with hnOut
  have hpre1 : ∀ p ∈ ((1, OutSrc.scene scn.sceneId scn.videoSourceId) ::
      (clearSourcesM st).1.slots), ∀ k, 2 ≤ k → k < 2 + nIn → p.1 ≠ k := by
    intro p hp k hk1 hk2 hpk
    rcases List.mem_cons.mp hp with h | h
    · rw [h] at hpk
      dsimp only at hpk
      omega
    · exact hclKeys p h (hpk ▸ (mem_range63 k).mpr ⟨by omega, by omega⟩)
  have hacc0 : (AudioAcc.mk ((1, OutSrc.scene scn.sceneId scn.videoSourceId) ::
      (clearSourcesM st).1.slots) [] 2 (clearSourcesM st).1.nextId).slots =
      (1, OutSrc.scene scn.sceneId scn.videoSourceId) ::
        (clearSourcesM st).1.slots := rfl
  obtain ⟨hct2, hnid2⟩ := audioFold_counters "wasapi_input_capture" "mic-audio"
    inSel env.audioInputDevices
    (AudioAcc.mk ((1, OutSrc.scene scn.sceneId scn.videoSourceId) ::
      (clearSourcesM st).1.slots) [] 2 (clearSourcesM st).1.nextId)
  have hsl2 := audioFold_slots "wasapi_input_capture" "mic-audio" inSel
    env.audioInputDevices
    (AudioAcc.mk ((1, OutSrc.scene scn.sceneId scn.videoSourceId) ::
      (clearSourcesM st).1.slots) [] 2 (clearSourcesM st).1.nextId) hpre1
  have hpre2 : ∀ p ∈ (env.audioInputDevices.foldl
      (audioStep "wasapi_input_capture" "mic-audio" inSel)
      (AudioAcc.mk ((1, OutSrc.scene scn.sceneId scn.videoSourceId) ::
        (clearSourcesM st).1.slots) [] 2 (clearSourcesM st).1.nextId)).slots,
      ∀ k, (env.audioInputDevices.foldl
        (audioStep "wasapi_input_capture" "mic-audio" inSel)
        (AudioAcc.mk ((1, OutSrc.scene scn.sceneId scn.videoSourceId) ::
          (clearSourcesM st).1.slots) [] 2
          (clearSourcesM st).1.nextId)).currentTrack ≤ k →
        k < (env.audioInputDevices.foldl
          (audioStep "wasapi_input_capture" "mic-audio" inSel)
          (AudioAcc.mk ((1, OutSrc.scene scn.sceneId scn.videoSourceId) ::
            (clearSourcesM st).1.slots) [] 2
            (clearSourcesM st).1.nextId)).currentTrack + nOut →
        p.1 ≠ k := by
    rw [hsl2, hct2]
    dsimp only
    intro p hp k hk1 hk2 hpk
    rcases List.mem_append.mp hp with h | h
    · have := (audioEntries_mem "wasapi_input_capture" inSel
        env.audioInputDevices 2 (clearSourcesM st).1.nextId p
        (List.mem_reverse.mp h)).1
      omega
    · rcases List.mem_cons.mp h with h2 | h2
      · rw [h2] at hpk
        dsimp only at hpk
        omega
      · exact hclKeys p h2 (hpk ▸ (mem_range63 k).mpr ⟨by omega, by omega⟩)
  have hsl3 := audioFold_slots "wasapi_output_capture" "desktop-audio" outSel
    env.audioOutputDevices
    (env.audioInputDevices.foldl
      (audioStep "wasapi_input_capture" "mic-audio" inSel)
      (AudioAcc.mk ((1, OutSrc.scene scn.sceneId scn.videoSourceId) ::
        (clearSourcesM st).1.slots) [] 2 (clearSourcesM st).1.nextId)) hpre2
  obtain ⟨hct3, hnid3⟩ := audioFold_counters "wasapi_output_capture"
    "desktop-audio" outSel env.audioOutputDevices
    (env.audioInputDevices.foldl
      (audioStep "wasapi_input_capture" "mic-audio" inSel)
      (AudioAcc.mk ((1, OutSrc.scene scn.sceneId scn.videoSourceId) ::
        (clearSourcesM st).1.slots) [] 2 (clearSourcesM st).1.nextId))
  unfold setupSourcesM
  dsimp only
  rw [hslots1]
  refine ⟨?_, ?_, ?_, ?_⟩
  · rw [hsl3, hsl2, hct2, hnid2]
    dsimp only
    rw [hclS, hclN]
  · rw [hct3, hct2]
  · rw [hct3, hct2]
    dsimp only
    rw [show (2 + nIn + nOut - 1 : Nat) = 1 + nIn + nOut from by omega]
  · rw [hnid3, hnid2]
    dsimp only
    rw [hclN]

/-! Event-predicate helpers. -/

/-- An event that is not a release of a pre-existing id is not an old
release. -/
theorem isOldRelease_false_of (b : Nat) (e : REvent)
    (h : ∀ id, e = .releaseSourceE id → b ≤ id) :
    isOldRelease b e = false := by
  cases e <;> simp [isOldRelease]
  have := h _ rfl
  omega

/-- A non-creating event creates no audio source. -/
theorem isAudioCreate_false_of_not_create (e : REvent)
    (h : isCreateEvent e = false) : isAudioCreateEvent e = false := by
  cases e <;> simp_all [isCreateEvent, isAudioCreateEvent]

/-- A non-creating event creates no video source or scene. -/
theorem isVideoCreate_false_of_not_create (e : REvent)
    (h : isCreateEvent e = false) : isVideoCreateEvent e = false := by
  cases e <;> simp_all [isCreateEvent, isVideoCreateEvent]

/-- An event whose only possible input-creation kinds are the audio
capture kinds, and which creates no scene, is not a video creation. -/
theorem isVideoCreate_false_of_kinds (e : REvent)
    (h1 : ∀ k2 nm id, e = .createInputE k2 nm id →
      k2 = "wasapi_input_capture" ∨ k2 = "wasapi_output_capture")
    (h2 : ∀ nm id, e ≠ .createSceneE nm id) :
    isVideoCreateEvent e = false := by
  cases e with
  | createInputE k2 nm id =>
    rcases h1 k2 nm id rfl with rfl | rfl <;> rfl
  | createSceneE nm id => exact absurd rfl (h2 nm id)
  | setSettingE c p v => rfl
  | updateSourceE id => rfl
  | saveSourceE id => rfl
  | addSceneItemE a b => rfl
  | setScaleE a => rfl
  | clearSizeTimerE => rfl
  | startSizeTimerE => rfl
  | setOutputSourceE a b => rfl
  | releaseSourceE id => rfl
  | removeSourceE id => rfl

/-! Reconfigure extraction. -/

/-- Decomposition of a successful `reconfigure`: the scene phase succeeds
on the size-reset state and bumps the id counter by two, and the final
state, trace, and counter come from `setupSources` on that intermediate
state. -/
theorem reconfigureM_ok (env : ObsEnv) (opts : RecOptions) (st st2 : ObsState)
    (tr : List REvent) (ct : Nat)
    (h : reconfigureM env opts st = .ok (st2, tr, ct)) :
    ∃ st1 evScene scn,
      setupSceneM env opts { st with lastVideoSourceSize := none } =
        .ok (st1, evScene, scn) ∧
      st1.slots = st.slots ∧ st1.nextId = st.nextId + 2 ∧
      scn = SceneRef.mk (st.nextId + 1) st.nextId ∧
      (∀ e ∈ evScene, isAudioCreateEvent e = false ∧
        ∀ id, e ≠ .releaseSourceE id) ∧
      st2 = (setupSourcesM env scn opts.audioInputDeviceId
        opts.audioOutputDeviceId st1).1 ∧
      tr = configureOBSM env opts ++ (evScene ++
        (setupSourcesM env scn opts.audioInputDeviceId
          opts.audioOutputDeviceId st1).2.1) ∧
      ct = (setupSourcesM env scn opts.audioInputDeviceId
        opts.audioOutputDeviceId st1).2.2 := by
  unfold reconfigureM at h
  dsimp only at h
  cases hs : setupSceneM env opts { st with lastVideoSourceSize := none } with
  | error e =>
    rw [hs] at h
    exact Except.noConfusion h
  | ok trip =>
    obtain ⟨st1, evScene, scn⟩ := trip
    rw [hs] at h
    dsimp only at h
    simp only [Except.ok.injEq, Prod.mk.injEq] at h
    obtain ⟨hA, hB, hC⟩ := h
    obtain ⟨hst1, hscn, hevs⟩ := setupSceneM_ok _ _ _ _ _ _ hs
    refine ⟨st1, evScene, scn, rfl, ?_, ?_, ?_, hevs, hA.symm, hB.symm, hC.symm⟩
    · rw [hst1]
    · rw [hst1]
    · rw [hscn]

/-- Audio entries contain no scene: filtering them for scenes drops all
of them and filtering for non-scenes keeps all of them. -/
theorem audioEntries_filter_scene (kind sel : String) (ds : List AudioDevice)
    (ct nid : Nat) :
    (audioEntries kind sel ds ct nid).reverse.filter
      (fun p => isSceneSrc p.2) = [] ∧
    (audioEntries kind sel ds ct nid).reverse.filter
      (fun p => !(isSceneSrc p.2)) =
      (audioEntries kind sel ds ct nid).reverse := by
  constructor
  · refine List.filter_eq_nil_iff.mpr (fun q hq => ?_)
    obtain ⟨-, d, -, id, mix, hsrc⟩ :=
      audioEntries_mem kind sel ds ct nid q (List.mem_reverse.mp hq)
    rw [hsrc]
    simp [isSceneSrc]
  · refine List.filter_eq_self.mpr (fun q hq => ?_)
    obtain ⟨-, d, -, id, mix, hsrc⟩ :=
      audioEntries_mem kind sel ds ct nid q (List.mem_reverse.mp hq)
    rw [hsrc]
    rfl

/-- C7: two back-to-back reconfigure passes from a fresh session leave
exactly one scene (holding the single video source) attached, the audio
slots of the second snapshot only, the final track counter
`2 + inputCount + outputCount` of the second snapshot, and the recorded
track mask covering tracks 1 through `1 + inputCount + outputCount` of
the second snapshot; nothing accumulates across the two calls. -/
theorem reconfigure_twice_counts
    (env1 env2 : ObsEnv) (opts1 opts2 : RecOptions)
    (st1 st2 : ObsState) (tr1 tr2 : List REvent) (ct1 ct2 : Nat)
    (hc1 : env1.audioInputDevices.length + env1.audioOutputDevices.length ≤ 62)
    (hc2 : env2.audioInputDevices.length + env2.audioOutputDevices.length ≤ 62)
    (h1 : reconfigureM env1 opts1 emptyObsState = .ok (st1, tr1, ct1))
    (h2 : reconfigureM env2 opts2 st1 = .ok (st2, tr2, ct2)) :
    sceneSlotCount st2 = 1 ∧
    audioSlotCount st2 =
      env2.audioInputDevices.length + env2.audioOutputDevices.length ∧
    ct2 = 2 + env2.audioInputDevices.length + env2.audioOutputDevices.length ∧
    st2.recTracksMask =
      2 ^ (1 + env2.audioInputDevices.length + env2.audioOutputDevices.length)
        - 1 := by
  obtain ⟨s11, ev1, scn1, hs1, hsl1, hn1, hscn1, hevs1, hst1def, htr1, hct1def⟩ :=
    reconfigureM_ok env1 opts1 emptyObsState st1 tr1 ct1 h1
  obtain ⟨hslots1, hct1eq, hmask1, hnid1⟩ :=
    setupSourcesM_spec env1 scn1 opts1.audioInputDeviceId
      opts1.audioOutputDeviceId s11 hc1
  have hsl1e : s11.slots = ([] : List (Nat × OutSrc)) := hsl1
  have hst1slots : st1.slots =
      (audioEntries "wasapi_output_capture" opts1.audioOutputDeviceId
          env1.audioOutputDevices (2 + env1.audioInputDevices.length)
          (s11.nextId + env1.audioInputDevices.length)).reverse ++
        ((audioEntries "wasapi_input_capture" opts1.audioInputDeviceId
            env1.audioInputDevices 2 s11.nextId).reverse ++
          ((1, OutSrc.scene scn1.sceneId scn1.videoSourceId) :: [])) := by
    rw [hst1def, hslots1, hsl1e]
    rfl
  have hkeys : ∀ p ∈ st1.slots, p.1 ∈ List.range' 1 63 := by
    intro p hp
    rw [hst1slots] at hp
    rcases List.mem_append.mp hp with h | h
    · have hb := (audioEntries_mem _ _ _ _ _ p (List.mem_reverse.mp h)).1
      have hlen : env1.audioOutputDevices.length ≤ 62 := by omega
      exact (mem_range63 p.1).mpr ⟨by omega, by omega⟩
    · rcases List.mem_append.mp h with h2 | h2
      · have hb := (audioEntries_mem _ _ _ _ _ p (List.mem_reverse.mp h2)).1
        exact (mem_range63 p.1).mpr ⟨by omega, by omega⟩
      · simp only [List.mem_cons, List.not_mem_nil, or_false] at h2
        rw [h2]
        exact (mem_range63 1).mpr ⟨le_refl 1, by omega⟩
  obtain ⟨s21, ev2, scn2, hs2, hsl2, hn2, hscn2, hevs2, hst2def, htr2, hct2def⟩ :=
    reconfigureM_ok env2 opts2 st1 st2 tr2 ct2 h2
  obtain ⟨hslots2, hct2eq, hmask2, hnid2⟩ :=
    setupSourcesM_spec env2 scn2 opts2.audioInputDeviceId
      opts2.audioOutputDeviceId s21 hc2
  have hrest : s21.slots.filter
      (fun p => !((List.range' 1 63).contains p.1)) = [] := by
    rw [hsl2]
    refine List.filter_eq_nil_iff.mpr (fun p hp hcon => ?_)
    exact (not_contains_iff _ _).mp hcon (hkeys p hp)
  have hslots2e : st2.slots =
      (audioEntries "wasapi_output_capture" opts2.audioOutputDeviceId
          env2.audioOutputDevices (2 + env2.audioInputDevices.length)
          (s21.nextId + env2.audioInputDevices.length)).reverse ++
        ((audioEntries "wasapi_input_capture" opts2.audioInputDeviceId
            env2.audioInputDevices 2 s21.nextId).reverse ++
          [(1, OutSrc.scene scn2.sceneId scn2.videoSourceId)]) := by
    rw [hst2def, hslots2, hrest]
  refine ⟨?_, ?_, ?_, ?_⟩
  · unfold sceneSlotCount
    rw [hslots2e, List.filter_append, List.filter_append,
      (audioEntries_filter_scene _ _ _ _ _).1,
      (audioEntries_filter_scene _ _ _ _ _).1]
    rfl
  · unfold audioSlotCount
    rw [hslots2e, List.filter_append, List.filter_append,
      (audioEntries_filter_scene _ _ _ _ _).2,
      (audioEntries_filter_scene _ _ _ _ _).2]
    simp only [List.length_append, List.length_reverse, audioEntries_length]
    have : ([(1, OutSrc.scene scn2.sceneId scn2.videoSourceId)].filter
        (fun p => !(isSceneSrc p.2))).length = 0 := rfl
    rw [this]
    omega
  · rw [hct2def, hct2eq]
  · rw [hst2def, hmask2]

/-- C6: `setupSources` attaches, besides the scene at slot 1, one audio
track per enumerated input then output device (the `audioEntries`
segments below), and the muted flag of each track is exactly
`selection == "none" or (selection != "all" and device.id != selection)`;
hence with selection `all` every such track is unmuted, with `none`
every such track is muted, and with a specific id exactly the tracks
bound to that device id are unmuted. -/
theorem setupSources_muted_policy (env : ObsEnv) (scn : SceneRef)
    (inSel outSel : String) (st : ObsState)
    (hcount : env.audioInputDevices.length + env.audioOutputDevices.length ≤ 62) :
    (setupSourcesM env scn inSel outSel st).1.slots =
      (audioEntries "wasapi_output_capture" outSel env.audioOutputDevices
          (2 + env.audioInputDevices.length)
          (st.nextId + env.audioInputDevices.length)).reverse ++
        ((audioEntries "wasapi_input_capture" inSel env.audioInputDevices 2
            st.nextId).reverse ++
          ((1, OutSrc.scene scn.sceneId scn.videoSourceId) ::
            st.slots.filter (fun p => !((List.range' 1 63).contains p.1)))) ∧
    (∀ (kind sel : String) (ds : List AudioDevice) (ct nid : Nat),
      ∀ q ∈ audioEntries kind sel ds ct nid,
        ∃ d, d ∈ ds ∧ q.2.deviceIdOf = d.id ∧
          q.2.mutedFlag =
            (sel == "none" || (sel != "all" && d.id != sel))) ∧
    (∀ (kind : String) (ds : List AudioDevice) (ct nid : Nat),
      ∀ q ∈ audioEntries kind "all" ds ct nid, q.2.mutedFlag = false) ∧
    (∀ (kind : String) (ds : List AudioDevice) (ct nid : Nat),
      ∀ q ∈ audioEntries kind "none" ds ct nid, q.2.mutedFlag = true) ∧
    (∀ (kind sel : String) (ds : List AudioDevice) (ct nid : Nat),
      sel ≠ "all" → sel ≠ "none" →
      ∀ q ∈ audioEntries kind sel ds ct nid,
        (q.2.mutedFlag = false ↔ q.2.deviceIdOf = sel)) := by
  refine ⟨(setupSourcesM_spec env scn inSel outSel st hcount).1, ?_, ?_, ?_, ?_⟩
  · intro kind sel ds ct nid q hq
    obtain ⟨-, d, hd, id, mix, hsrc⟩ := audioEntries_mem kind sel ds ct nid q hq
    refine ⟨d, hd, ?_, ?_⟩
    · rw [hsrc]
      rfl
    · rw [hsrc]
      rfl
  · intro kind ds ct nid q hq
    obtain ⟨-, d, hd, id, mix, hsrc⟩ := audioEntries_mem kind "all" ds ct nid q hq
    rw [hsrc]
    rfl
  · intro kind ds ct nid q hq
    obtain ⟨-, d, hd, id, mix, hsrc⟩ := audioEntries_mem kind "none" ds ct nid q hq
    rw [hsrc]
    rfl
  · intro kind sel ds ct nid hsel1 hsel2 q hq
    obtain ⟨-, d, hd, id, mix, hsrc⟩ := audioEntries_mem kind sel ds ct nid q hq
    rw [hsrc]
    show ((sel == "none" || (sel != "all" && d.id != sel)) = false ↔ d.id = sel)
    have h1 : (sel == "none") = false := beq_eq_false_iff_ne.mpr hsel2
    have h2 : (sel != "all") = true := bne_iff_ne.mpr hsel1
    rw [h1, h2, Bool.false_or, Bool.true_and]
    simp [bne]

/-- Witness for C6: with selection `all` and the concrete device list of
`envC`, the produced input track is unmuted. -/
theorem setupSources_muted_policy_witness :
    ((audioEntries "wasapi_input_capture" "all"
        [AudioDevice.mk "mic1" "Mic One"] 2 0).getD 0
      (0, OutSrc.scene 0 0)).2.mutedFlag = false :=
  (setupSources_muted_policy envC (SceneRef.mk 1 0) "all" "none"
      emptyObsState (by decide)).2.2.1 "wasapi_input_capture"
    [AudioDevice.mk "mic1" "Mic One"] 2 0
    ((audioEntries "wasapi_input_capture" "all"
        [AudioDevice.mk "mic1" "Mic One"] 2 0).getD 0
      (0, OutSrc.scene 0 0)) (by decide)

/-- Definitional shape of the `clearSources` trace. -/
theorem clearSourcesM_trace_eq (st : ObsState) :
    (clearSourcesM st).2 =
      ((List.range' 1 63).foldl clearSlotStep (st.slots, [])).2 ++
        [REvent.setSettingE "Output" "RecTracks" (.num 0)] := rfl

/-- Definitional shape of the `setupSources` trace: clear phase, scene
attachment and mixed-track naming, device loops, final mask write. -/
theorem setupSourcesM_trace_eq (env : ObsEnv) (scn : SceneRef)
    (inSel outSel : String) (st : ObsState) :
    (setupSourcesM env scn inSel outSel st).2.1 =
      (clearSourcesM st).2 ++
        ([REvent.setOutputSourceE 1
            (some (OutSrc.scene scn.sceneId scn.videoSourceId)),
          REvent.setSettingE "Output" "Track1Name" (.str "Mixed: all sources")] ++
         ((audioAccAfter env scn inSel outSel st).evs ++
          [REvent.setSettingE "Output" "RecTracks"
            (.num ((2 ^ ((audioAccAfter env scn inSel outSel st).currentTrack
              - 1) - 1 : Nat) : Int))])) := by
  unfold setupSourcesM audioAccAfter
  dsimp only
  simp only [List.append_assoc]

/-- Every event of the device loops either creates an audio capture
source (never a scene, never a video source) or releases a handle whose
id is at least the entry id counter. -/
theorem audioAccAfter_evs (env : ObsEnv) (scn : SceneRef)
    (inSel outSel : String) (st : ObsState) (e : REvent)
    (he : e ∈ (audioAccAfter env scn inSel outSel st).evs) :
    (∀ k2 nm id, e = .createInputE k2 nm id →
      k2 = "wasapi_input_capture" ∨ k2 = "wasapi_output_capture") ∧
    (∀ nm id, e ≠ .createSceneE nm id) ∧
    (∀ id, e = .releaseSourceE id → st.nextId ≤ id) := by
  unfold audioAccAfter at he
  have hn := (clearSourcesM_state st).2
  rcases audioFold_evs _ _ _ _ _ e he with h0 | ⟨h1, h2, h3⟩
  · rcases audioFold_evs _ _ _ _ _ e h0 with h00 | ⟨h1, h2, h3⟩
    · simp at h00
    · refine ⟨fun k2 nm id hid => Or.inl (h1 k2 nm id hid), h2,
        fun id hid => ?_⟩
      have hle := h3 id hid
      dsimp only at hle
      omega
  · refine ⟨fun k2 nm id hid => Or.inr (h1 k2 nm id hid), h2,
      fun id hid => ?_⟩
    have hle := h3 id hid
    have hcnt := (audioFold_counters "wasapi_input_capture" "mic-audio" inSel
      env.audioInputDevices
      (AudioAcc.mk (setSlot (clearSourcesM st).1.slots 1
        (some (OutSrc.scene scn.sceneId scn.videoSourceId))) [] 2
        (clearSourcesM st).1.nextId)).2
    dsimp only at hcnt
    omega

/-- C8 (amended): in every successful reconfigure pass, each release of a
handle attached before the pass (id below the entry id counter) occurs
strictly before every creation of an audio capture source; but, contrary
to the original claim, the new video source and the new scene are
created strictly before those releases, so a transient overlap of one
old and one new video-source/scene pair does occur. -/
theorem reconfigure_release_order (env : ObsEnv) (opts : RecOptions)
    (st st2 : ObsState) (tr : List REvent) (ct : Nat)
    (h : reconfigureM env opts st = .ok (st2, tr, ct)) :
    (∀ i j, isOldRelease st.nextId (tr.getD i .clearSizeTimerE) = true →
      isAudioCreateEvent (tr.getD j .clearSizeTimerE) = true → i < j) ∧
    (∀ i j, isVideoCreateEvent (tr.getD i .clearSizeTimerE) = true →
      isOldRelease st.nextId (tr.getD j .clearSizeTimerE) = true → i < j) := by
  obtain ⟨st1, evScene, scn, hs, hsl1, hn1, hscn, hsceneEvs, hst2, htr, hct⟩ :=
    reconfigureM_ok env opts st st2 tr ct h
  have hclear_evs : ∀ e ∈ ((List.range' 1 63).foldl clearSlotStep
      (st1.slots, [])).2, isCreateEvent e = false := by
    intro e he
    rcases clearFold_evs _ _ e he with h0 | ⟨hnc, -⟩
    · simp at h0
    · exact hnc
  have haudio_old : ∀ e ∈ (audioAccAfter env scn opts.audioInputDeviceId
      opts.audioOutputDeviceId st1).evs, isOldRelease st.nextId e = false := by
    intro e he
    obtain ⟨-, -, hrel⟩ := audioAccAfter_evs _ _ _ _ _ e he
    refine isOldRelease_false_of _ _ (fun id hid => ?_)
    have := hrel id hid
    omega
  have haudio_video : ∀ e ∈ (audioAccAfter env scn opts.audioInputDeviceId
      opts.audioOutputDeviceId st1).evs, isVideoCreateEvent e = false := by
    intro e he
    obtain ⟨h1, h2, -⟩ := audioAccAfter_evs _ _ _ _ _ e he
    exact isVideoCreate_false_of_kinds e h1 h2
  have hcfg_audio : ∀ e ∈ configureOBSM env opts,
      isAudioCreateEvent e = false := by
    intro e he
    obtain ⟨c, p, v, rfl⟩ := configureOBSM_evs env opts e he
    rfl
  have hcfg_old : ∀ e ∈ configureOBSM env opts,
      isOldRelease st.nextId e = false := by
    intro e he
    obtain ⟨c, p, v, rfl⟩ := configureOBSM_evs env opts e he
    rfl
  have htrA : tr =
      (configureOBSM env opts ++ (evScene ++
        (((List.range' 1 63).foldl clearSlotStep (st1.slots, [])).2 ++
         [REvent.setSettingE "Output" "RecTracks" (.num 0),
          REvent.setOutputSourceE 1
            (some (OutSrc.scene scn.sceneId scn.videoSourceId)),
          REvent.setSettingE "Output" "Track1Name"
            (.str "Mixed: all sources")]))) ++
      ((audioAccAfter env scn opts.audioInputDeviceId
          opts.audioOutputDeviceId st1).evs ++
        [REvent.setSettingE "Output" "RecTracks"
          (.num ((2 ^ ((audioAccAfter env scn opts.audioInputDeviceId
            opts.audioOutputDeviceId st1).currentTrack - 1) - 1 : Nat) : Int))]) := by
    rw [htr, setupSourcesM_trace_eq, clearSourcesM_trace_eq]
    simp only [List.append_assoc, List.cons_append, List.singleton_append,
      List.nil_append]
  have htrB : tr =
      (configureOBSM env opts ++ evScene) ++
      (((List.range' 1 63).foldl clearSlotStep (st1.slots, [])).2 ++
        ([REvent.setSettingE "Output" "RecTracks" (.num 0),
          REvent.setOutputSourceE 1
            (some (OutSrc.scene scn.sceneId scn.videoSourceId)),
          REvent.setSettingE "Output" "Track1Name"
            (.str "Mixed: all sources")] ++
         ((audioAccAfter env scn opts.audioInputDeviceId
            opts.audioOutputDeviceId st1).evs ++
          [REvent.setSettingE "Output" "RecTracks"
            (.num ((2 ^ ((audioAccAfter env scn opts.audioInputDeviceId
              opts.audioOutputDeviceId st1).currentTrack - 1) - 1 : Nat)
              : Int))]))) := by
    rw [htr, setupSourcesM_trace_eq, clearSourcesM_trace_eq]
    simp only [List.append_assoc, List.cons_append, List.singleton_append,
      List.nil_append]
  constructor
  · intro i j hPi hQj
    rw [htrA] at hPi hQj
    refine ordered_segments _ _ _ _ _ ?_ ?_ rfl rfl i j hPi hQj
    · intro e he
      rcases List.mem_append.mp he with he1 | he1
      · exact haudio_old e he1
      · simp only [List.mem_singleton] at he1
        rw [he1]
        rfl
    · intro e he
      rcases List.mem_append.mp he with he1 | he1
      · exact hcfg_audio e he1
      · rcases List.mem_append.mp he1 with he2 | he2
        · exact (hsceneEvs e he2).1
        · rcases List.mem_append.mp he2 with he3 | he3
          · exact isAudioCreate_false_of_not_create e (hclear_evs e he3)
          · simp only [List.mem_cons, List.not_mem_nil, or_false] at he3
            rcases he3 with rfl | rfl | rfl <;> rfl
  · intro i j hPi hQj
    rw [htrB] at hPi hQj
    refine ordered_segments _ _ _ _ _ ?_ ?_ rfl rfl i j hPi hQj
    · intro e he
      rcases List.mem_append.mp he with he1 | he1
      · exact isVideoCreate_false_of_not_create e (hclear_evs e he1)
      · rcases List.mem_append.mp he1 with he2 | he2
        · simp only [List.mem_cons, List.not_mem_nil, or_false] at he2
          rcases he2 with rfl | rfl | rfl <;> rfl
        · rcases List.mem_append.mp he2 with he3 | he3
          · exact haudio_video e he3
          · simp only [List.mem_singleton] at he3
            rw [he3]
            rfl
    · intro e he
      rcases List.mem_append.mp he with he1 | he1
      · exact hcfg_old e he1
      · exact isOldRelease_false_of _ _
          (fun id hid => absurd hid ((hsceneEvs e he1).2 id))

set_option maxRecDepth 40000 in
/-- C8 counterexample: the claim that all previously created handles are
released before any new source handle is created fails.  Reconfiguring
the state `stC` (one old scene, handle id 0) creates the new video
source (handle id 2, trace index 9) before releasing the old scene
handle (trace index 20). -/
theorem reconfigure_release_order_cex :
    (recTrace (reconfigureM envC optsC stC)).getD 9 .clearSizeTimerE =
      .createInputE "game_capture" "Game Capture" 2 ∧
    (recTrace (reconfigureM envC optsC stC)).getD 20 .clearSizeTimerE =
      .releaseSourceE 0 ∧
    isOldRelease stC.nextId (.releaseSourceE 0) = true ∧
    isVideoCreateEvent (.createInputE "game_capture" "Game Capture" 2) = true ∧
    (9 : Nat) < 20 := by
  refine ⟨by decide, by decide, by decide, by decide, by decide⟩

set_option maxRecDepth 40000 in
/-- Witness for C8 (amended): the ordering guarantees instantiated on the
concrete fixture run. -/
theorem reconfigure_release_order_witness :
    (∀ i j, isOldRelease stC.nextId
        ((recTrace (reconfigureM envC optsC stC)).getD i .clearSizeTimerE) =
          true →
      isAudioCreateEvent
        ((recTrace (reconfigureM envC optsC stC)).getD j .clearSizeTimerE) =
          true →
      i < j) ∧
    (∀ i j, isVideoCreateEvent
        ((recTrace (reconfigureM envC optsC stC)).getD i .clearSizeTimerE) =
          true →
      isOldRelease stC.nextId
        ((recTrace (reconfigureM envC optsC stC)).getD j .clearSizeTimerE) =
          true →
      i < j) :=
  reconfigure_release_order envC optsC stC
    (recResult (reconfigureM envC optsC stC)).1
    (recTrace (reconfigureM envC optsC stC))
    (recResult (reconfigureM envC optsC stC)).2.2
    rfl

set_option maxRecDepth 40000 in
/-- Witness for C7: the counts instantiated on two concrete back-to-back
reconfigure passes (one input device, one output device). -/
theorem reconfigure_twice_counts_witness :
    sceneSlotCount resSecond.1 = 1 ∧
    audioSlotCount resSecond.1 =
      envC.audioInputDevices.length + envC.audioOutputDevices.length ∧
    resSecond.2.2 =
      2 + envC.audioInputDevices.length + envC.audioOutputDevices.length ∧
    resSecond.1.recTracksMask =
      2 ^ (1 + envC.audioInputDevices.length +
        envC.audioOutputDevices.length) - 1 :=
  reconfigure_twice_counts envC envC optsC optsC stFirst resSecond.1
    (recTrace (reconfigureM envC optsC emptyObsState)) resSecond.2.1
    (recResult (reconfigureM envC optsC emptyObsState)).2.2 resSecond.2.2
    (by decide) (by decide) rfl rfl

end ObsRec
